import Mathlib

/-!
A formal model of the pompeteer page-object layer: the `waitFor` polling
utility, the `PompElement` / `PompPage` locator fetchers, and the
`PompElementCollection` utilities.  The embedding is shallow: fetch closures
become functions from an optional timeout to an `Except`-valued outcome paired
with a log of the DOM queries they issued; JS timers become a discrete timer
model; JS truthiness is modelled explicitly where the code relies on it.
-/

namespace Pompeteer

/-- DOM node handles (puppeteer `ElementHandle`s) are modelled by ids. -/
abbrev Handle := Nat

/-- The document root context that `PompPage` queries run against. -/
def rootHandle : Handle := 0

/-- A DOM oracle: for a selector and a context handle, the list of matching
handles (`$x` and `$$` return the full list; single-element code uses its
head).  The DOM is held fixed while a single fetch runs. -/
def Dom := String → Handle → List Handle

/-- Log of selectors queried against the driver, in issue order. -/
abbrev Log := List String

/-- Errors a fetch can reject with. -/
inductive PompError where
  /-- `PompTimeoutError(page, selector, timeout)` raised by this layer. -/
  | timeoutErr (selector : String) (ms : Nat)
  /-- JS `TypeError` from reading `.timeout()` when `_timeoutSettings` is absent. -/
  | typeError
  /-- puppeteer's own `TimeoutError` rejected by `waitForSelector`. -/
  | driverTimeout (selector : String) (ms : Nat)
deriving DecidableEq

/-- A fetch closure `(timeout?: number) => Promise<A>`, together with the log
of DOM queries it issues when invoked. -/
def Fetcher (α : Type) := Option Nat → Except PompError α × Log

/-- JS truthiness of a `number | undefined` value: `undefined` and `0` are falsy. -/
def numTruthy : Option Nat → Bool
  | none => false
  | some n => n != 0

/-- The line `timeout = timeout || (page as any)._timeoutSettings.timeout() || 10000`
at the top of `waitFor`.  `settings = none` models a page object without
`_timeoutSettings`; the unguarded property access then throws a `TypeError`. -/
def waitForEffTimeout (settings : Option Nat) (timeout : Option Nat) :
    Except PompError Nat :=
  if numTruthy timeout then .ok (timeout.getD 0)
  else
    match settings with
    | none => .error .typeError
    | some v => .ok (if v != 0 then v else 10000)

/-- The line `timeout = timeout || (page as any)?._timeoutSettings?.timeout?.() || 10000`
in the `PompTimeoutError` constructor: the optional chaining never throws, an
absent settings object just falls through to `10000`. -/
def pompTimeoutValue (settings : Option Nat) (timeout : Option Nat) : Nat :=
  if numTruthy timeout then timeout.getD 0
  else
    match settings with
    | none => 10000
    | some v => if v != 0 then v else 10000

/-- The default parameter `interval = 500` of `waitFor`: an omitted (or
`undefined`) interval becomes `500`; an explicit `0` is kept. -/
def effInterval (interval : Option Nat) : Nat := interval.getD 500

/-- First successful attempt among attempts `k, k+1, …, k+n-1`, in order;
`pred j = some v` models a truthy result of the j-th predicate invocation. -/
def firstHitFrom (pred : Nat → Option α) : Nat → Nat → Option (Nat × α)
  | _, 0 => none
  | k, n + 1 =>
    match pred k with
    | some v => some (k, v)
    | none => firstHitFrom pred (k + 1) n

/-- First successful attempt among attempts `1 … n`. -/
def firstHit (pred : Nat → Option α) (n : Nat) : Option (Nat × α) :=
  firstHitFrom pred 1 n

/-- Outcome of one `waitFor` call under the discrete timer model. -/
structure WaitRun (α : Type) where
  /-- the value the returned promise resolves with (`Except` for the
  synchronous `TypeError` thrown before the promise is created) -/
  result : Except PompError (Option α)
  /-- the times at which the predicate was invoked -/
  attempts : List Nat
  /-- the time at which the promise resolved -/
  resolveTime : Nat

/-- Times `I, 2·I, …, n·I` of the first `n` interval firings. -/
def attemptTimes (n I : Nat) : List Nat := (List.range n).map fun i => (i + 1) * I

/-- The body of `waitFor(page, predicate, timeout?, interval)` under the
discrete timer model: the `setInterval` callback fires at `I, 2I, …` while not
cleared and the `setTimeout` deadline callback at `T`; on a shared expiry the
earlier-registered interval callback (and the awaited predicate's
continuation, a microtask) runs before the deadline callback, so the attempt
at time `k·I` happens iff `k·I ≤ T`, i.e. iff `k ≤ T / I`.  A truthy attempt
clears both timers and resolves with its result; otherwise the deadline
clears the interval timer and resolves with `null` (modelled `none`). -/
def waitForRun (settings : Option Nat) (pred : Nat → Option α)
    (timeout : Option Nat) (interval : Option Nat) : WaitRun α :=
  match waitForEffTimeout settings timeout with
  | .error e => ⟨.error e, [], 0⟩
  | .ok T =>
    let I := effInterval interval
    let n := T / I
    match firstHit pred n with
    | some (k, v) => ⟨.ok (some v), attemptTimes k I, k * I⟩
    | none => ⟨.ok none, attemptTimes n I, T⟩

/-- JS runtime values, as far as the code inspects them (truthiness and `!!`). -/
inductive JsValue where
  /-- `undefined` -/
  | undef
  /-- `null` -/
  | nullv
  /-- a boolean -/
  | boolv (b : Bool)
  /-- a number -/
  | numv (n : Int)
  /-- a string -/
  | strv (s : String)
  /-- any object reference: an `ElementHandle`, an array, a pending `Promise` -/
  | objv
deriving DecidableEq

/-- JS truthiness: `undefined`, `null`, `false`, `0` and `""` are falsy; every
object reference (element handles, arrays, promises) is truthy. -/
def truthy : JsValue → Bool
  | .undef => false
  | .nullv => false
  | .boolv b => b
  | .numv n => n != 0
  | .strv s => s != ""
  | .objv => true

/-- The body of `PompElement.exists`:
`try { return !!(await this.fetch(timeout)); } catch { return false; }`. -/
def existsCheck (fetch : Fetcher JsValue) (timeout : Nat) : Bool :=
  match (fetch (some timeout)).1 with
  | .ok v => truthy v
  | .error _ => false

/-- JS `String.prototype.split(" ")`: split on each single space character.
Strings are modelled as lists of characters. -/
def jsSplitSpace : List Char → List (List Char)
  | [] => [[]]
  | c :: rest =>
    if c = ' ' then [] :: jsSplitSpace rest
    else
      match jsSplitSpace rest with
      | [] => [[c]]
      | t :: ts => (c :: t) :: ts

/-- The `classes` getter: fetch, read the `className` property, then
`value.split(" ")`. -/
def classes (className : List Char) : List (List Char) := jsSplitSpace className

/-- Rejoin tokens with single spaces (the inverse reading of `split(" ")`). -/
def joinSpaces : List (List Char) → List Char
  | [] => []
  | [t] => t
  | t :: ts => t ++ ' ' :: joinSpaces ts

/-- The loop of `PompElementCollection.find`: walk the fetched items in order,
await the predicate on each, return the first truthy one.  Also returns the
list of items the predicate was evaluated on, in evaluation order. -/
def findEval (pred : α → Bool) : List α → Option α × List α
  | [] => (none, [])
  | x :: xs =>
    if pred x then (some x, [x])
    else
      let r := findEval pred xs
      (r.1, x :: r.2)

/-- The body of `PompElementCollection.find`: `const els = await this.fetch();`
then the sequential loop.  The second component is the evaluation log. -/
def collFind (fetched : Except PompError (List α)) (pred : α → Bool) :
    Except PompError (Option α) × List α :=
  match fetched with
  | .error e => (.error e, [])
  | .ok els =>
    let r := findEval pred els
    (.ok r.1, r.2)

/-- The body of `PompElementCollection.filter`: fetch, map every item to
`{ el, isValid: await predicate(el) }` (all issued in fetched order and awaited
jointly via `Promise.all`, which preserves index order independently of
completion timing), keep the valid ones, project the items.  The second
component lists the items the predicate was issued on, in issue order. -/
def collFilter (fetched : Except PompError (List α)) (pred : α → Bool) :
    Except PompError (List α) × List α :=
  match fetched with
  | .error e => (.error e, [])
  | .ok els =>
    let validations := els.map fun el => (el, pred el)
    (.ok ((validations.filter fun v => v.2).map fun v => v.1), els)

/-- The fetcher built by `PompElement.$x(selector)`: resolve the parent first
(`const self = await this.fetch()`, called with no timeout argument), then
`waitFor` the first xpath match under it; a `null` poll result raises
`PompTimeoutError(page, selector, timeout)`. -/
def elXFetcher (dom : Dom) (settings : Option Nat) (parent : Fetcher Handle)
    (selector : String) : Fetcher Handle :=
  fun timeout =>
    match parent none with
    | (.error e, log) => (.error e, log)
    | (.ok self, log) =>
      let w := waitForRun settings (fun _ => (dom selector self).head?) timeout none
      let log := log ++ List.replicate w.attempts.length selector
      match w.result with
      | .error e => (.error e, log)
      | .ok none => (.error (.timeoutErr selector (pompTimeoutValue settings timeout)), log)
      | .ok (some el) => (.ok el, log)

/-- The fetcher built by `PompPage.$x(selector)`: like `elXFetcher` but
anchored at the document root, with no parent fetch. -/
def pageXFetcher (dom : Dom) (settings : Option Nat) (selector : String) :
    Fetcher Handle :=
  fun timeout =>
    let w := waitForRun settings (fun _ => (dom selector rootHandle).head?) timeout none
    let log := List.replicate w.attempts.length selector
    match w.result with
    | .error e => (.error e, log)
    | .ok none => (.error (.timeoutErr selector (pompTimeoutValue settings timeout)), log)
    | .ok (some el) => (.ok el, log)

/-- The fetcher built by `PompElement.$$x(selector)`: resolve the parent, poll
with `waitFor` and DISCARD its result, then evaluate
`const el = self.$x(selector)` WITHOUT awaiting it — `el` is a pending
`Promise`, an object, so the `if (!el)` guard tests the truthiness of a
promise and the `throw new PompTimeoutError(...)` behind it is unreachable;
`return el` awaits the promise, i.e. the full (possibly empty) match list. -/
def elXXFetcher (dom : Dom) (settings : Option Nat) (parent : Fetcher Handle)
    (selector : String) : Fetcher (List Handle) :=
  fun timeout =>
    match parent none with
    | (.error e, log) => (.error e, log)
    | (.ok self, log) =>
      let w := waitForRun settings (fun _ => (dom selector self).head?) timeout none
      let log := log ++ List.replicate w.attempts.length selector
      match w.result with
      | .error e => (.error e, log)
      | .ok _ =>
        let log := log ++ [selector]
        let el : JsValue := .objv
        if truthy el = false then
          (.error (.timeoutErr selector (pompTimeoutValue settings timeout)), log)
        else
          (.ok (dom selector self), log)

/-- The fetcher built by `PompPage.$$x(selector)`: the root-anchored analogue
of `elXXFetcher`, with the same un-awaited `this.page.$x(selector)` and the
same unreachable throw. -/
def pageXXFetcher (dom : Dom) (settings : Option Nat) (selector : String) :
    Fetcher (List Handle) :=
  fun timeout =>
    let w := waitForRun settings (fun _ => (dom selector rootHandle).head?) timeout none
    let log := List.replicate w.attempts.length selector
    match w.result with
    | .error e => (.error e, log)
    | .ok _ =>
      let log := log ++ [selector]
      let el : JsValue := .objv
      if truthy el = false then
        (.error (.timeoutErr selector (pompTimeoutValue settings timeout)), log)
      else
        (.ok (dom selector rootHandle), log)

/-- Modelled driver primitive `waitForSelector(selector, { timeout })`:
resolves the first match, rejects with puppeteer's own `TimeoutError` when no
match appears before its deadline; an `undefined` timeout option falls back to
the driver's configured default (30000 when unset).  Its internal polling is
modelled with the same 500-unit tick and is logged like this layer's own
queries. -/
def waitForSelectorModel (dom : Dom) (settings : Option Nat) (self : Handle)
    (selector : String) (timeout : Option Nat) : Except PompError Handle × Log :=
  let T :=
    match timeout with
    | some t => t
    | none => match settings with
      | some v => v
      | none => 30000
  let n := T / 500
  match firstHit (fun _ => (dom selector self).head?) n with
  | some (k, el) => (.ok el, List.replicate k selector)
  | none => (.error (.driverTimeout selector T), List.replicate n selector)

/-- The fetcher built by `PompElement.$(selector)`: resolve the parent, then
return `self.waitForSelector(selector, { timeout })` directly (the driver's
timeout rejection propagates). -/
def elCssFetcher (dom : Dom) (settings : Option Nat) (parent : Fetcher Handle)
    (selector : String) : Fetcher Handle :=
  fun timeout =>
    match parent none with
    | (.error e, log) => (.error e, log)
    | (.ok self, log) =>
      let w := waitForSelectorModel dom settings self selector timeout
      (w.1, log ++ w.2)

/-- The fetcher built by `PompElement.$$(selector)`: resolve the parent,
`await self.waitForSelector(selector, { timeout }).catch(() => {})` — the
wait's outcome is swallowed — then return `await self.$$(selector)`, the full
(possibly empty) match list. -/
def elCCFetcher (dom : Dom) (settings : Option Nat) (parent : Fetcher Handle)
    (selector : String) : Fetcher (List Handle) :=
  fun timeout =>
    match parent none with
    | (.error e, log) => (.error e, log)
    | (.ok self, log) =>
      let w := waitForSelectorModel dom settings self selector timeout
      (.ok (dom selector self), log ++ w.2 ++ [selector])

/-- The fetcher built by `PompPage.$$(selector)`: the root-anchored analogue
of `elCCFetcher`. -/
def pageCCFetcher (dom : Dom) (settings : Option Nat) (selector : String) :
    Fetcher (List Handle) :=
  fun timeout =>
    let w := waitForSelectorModel dom settings rootHandle selector timeout
    (.ok (dom selector rootHandle), w.2 ++ [selector])

/-- A materialized item of a `PompElementCollection`, with an allocation id
modelling JS object identity of the `new Type(...)` / `new PompElement(...)`
constructed per item and per fetch. -/
structure PinnedElem where
  /-- allocation id: fresh for every constructed instance -/
  objId : Nat
  /-- the already-resolved handle captured by the item's fetch closure -/
  handle : Handle
deriving DecidableEq

/-- The fetch closure of a materialized item: `() => Promise.resolve(el)` —
it returns the captured, already-resolved handle and issues no DOM query. -/
def pinnedFetch (e : PinnedElem) : Except PompError Handle × Log :=
  (.ok e.handle, [])

/-- `collection.map((el) => new Type(this.page, () => Promise.resolve(el)))`:
wrap each handle, in order, in a freshly allocated element. -/
def materialize (nid : Nat) : List Handle → List PinnedElem
  | [] => []
  | h :: hs => ⟨nid, h⟩ :: materialize (nid + 1) hs

/-- The `fetch` installed by the `PompElementCollection` constructor: invoke
the underlying handle-list fetcher, then materialize every handle.  `nid` is
the allocator state threaded to model object identity. -/
def collFetch (cf : Fetcher (List Handle)) (timeout : Option Nat) (nid : Nat) :
    (Except PompError (List PinnedElem) × Log) × Nat :=
  match cf timeout with
  | (.ok hs, log) => ((.ok (materialize nid hs), log), nid + hs.length)
  | (.error e, log) => ((.error e, log), nid)

/-! ## Helper lemmas -/

theorem firstHitFrom_eq_none {α : Type} {pred : Nat → Option α} :
    ∀ n k, firstHitFrom pred k n = none → ∀ i, k ≤ i → i < k + n → pred i = none := by
  intro n
  induction n with
  | zero => intro k _ i hki hik; omega
  | succ m ih =>
    intro k h i hki hik
    rw [firstHitFrom] at h
    cases hpk : pred k with
    | some v => rw [hpk] at h; exact absurd h (by simp)
    | none =>
      rw [hpk] at h
      rcases Nat.eq_or_lt_of_le hki with rfl | hlt
      · exact hpk
      · exact ih (k + 1) h i hlt (by omega)

theorem firstHitFrom_eq_some {α : Type} {pred : Nat → Option α} :
    ∀ n k j v, firstHitFrom pred k n = some (j, v) →
      k ≤ j ∧ j < k + n ∧ pred j = some v := by
  intro n
  induction n with
  | zero => intro k j v h; rw [firstHitFrom] at h; exact absurd h (by simp)
  | succ m ih =>
    intro k j v h
    rw [firstHitFrom] at h
    cases hpk : pred k with
    | some w =>
      rw [hpk] at h
      simp only [Option.some.injEq, Prod.mk.injEq] at h
      obtain ⟨rfl, rfl⟩ := h
      exact ⟨Nat.le_refl _, by omega, hpk⟩
    | none =>
      rw [hpk] at h
      obtain ⟨h1, h2, h3⟩ := ih (k + 1) j v h
      exact ⟨by omega, by omega, h3⟩

theorem firstHitFrom_const_none {α : Type} :
    ∀ n k, firstHitFrom (fun _ => (none : Option α)) k n = none := by
  intro n
  induction n with
  | zero => intro k; rw [firstHitFrom]
  | succ m ih => intro k; rw [firstHitFrom]; exact ih (k + 1)

theorem mem_attemptTimes {t n I : Nat} (h : t ∈ attemptTimes n I) :
    ∃ i, i < n ∧ t = (i + 1) * I := by
  unfold attemptTimes at h
  obtain ⟨i, hi, rfl⟩ := List.mem_map.mp h
  exact ⟨i, List.mem_range.mp hi, rfl⟩

theorem jsSplitSpace_ne_nil : ∀ s : List Char, jsSplitSpace s ≠ [] := by
  intro s
  cases s with
  | nil => simp [jsSplitSpace]
  | cons c rest =>
    rw [jsSplitSpace]
    by_cases hc : c = ' '
    · simp [hc]
    · simp only [hc, if_false]
      cases jsSplitSpace rest <;> simp

theorem joinSpaces_cons_cons (t u : List Char) (ts : List (List Char)) :
    joinSpaces (t :: u :: ts) = t ++ ' ' :: joinSpaces (u :: ts) := rfl

theorem joinSpaces_jsSplitSpace : ∀ s : List Char, joinSpaces (jsSplitSpace s) = s := by
  intro s
  induction s with
  | nil => rfl
  | cons c rest ih =>
    rw [jsSplitSpace]
    obtain ⟨t, ts, hts⟩ : ∃ t ts, jsSplitSpace rest = t :: ts := by
      cases h : jsSplitSpace rest with
      | nil => exact absurd h (jsSplitSpace_ne_nil rest)
      | cons t ts => exact ⟨t, ts, rfl⟩
    rw [hts] at ih
    by_cases hc : c = ' '
    · subst hc
      rw [if_pos rfl, hts, joinSpaces_cons_cons, List.nil_append, ih]
    · rw [if_neg hc, hts]
      cases ts with
      | nil =>
        show c :: t = c :: rest
        rw [show joinSpaces [t] = t from rfl] at ih
        rw [ih]
      | cons u ts' =>
        rw [joinSpaces_cons_cons, List.cons_append, ← joinSpaces_cons_cons, ih]

theorem jsSplitSpace_no_space :
    ∀ s : List Char, ((jsSplitSpace s).all fun t => t.all fun c => c != ' ') = true := by
  intro s
  induction s with
  | nil => rfl
  | cons c rest ih =>
    rw [jsSplitSpace]
    by_cases hc : c = ' '
    · rw [if_pos hc, List.all_cons]
      simpa using ih
    · rw [if_neg hc]
      obtain ⟨t, ts, hts⟩ : ∃ t ts, jsSplitSpace rest = t :: ts := by
        cases h : jsSplitSpace rest with
        | nil => exact absurd h (jsSplitSpace_ne_nil rest)
        | cons t ts => exact ⟨t, ts, rfl⟩
      rw [hts]
      rw [hts, List.all_cons, Bool.and_eq_true] at ih
      rw [List.all_cons, Bool.and_eq_true]
      refine ⟨?_, ih.2⟩
      rw [List.all_cons, Bool.and_eq_true]
      exact ⟨by simpa using hc, ih.1⟩

theorem attemptTimes_length (n I : Nat) : (attemptTimes n I).length = n := by
  simp [attemptTimes]

theorem waitForEffTimeout_pos (settings : Option Nat) {T : Nat} (hT : 0 < T) :
    waitForEffTimeout settings (some T) = .ok T := by
  have h : numTruthy (some T) = true := by
    simp only [numTruthy, bne_iff_ne, ne_eq]
    omega
  unfold waitForEffTimeout
  rw [if_pos h]
  rfl

theorem waitForRun_const_none {α : Type} (settings : Option Nat)
    (timeout interval : Option Nat) :
    waitForRun (α := α) settings (fun _ => none) timeout interval =
      match waitForEffTimeout settings timeout with
      | .error e => ⟨.error e, [], 0⟩
      | .ok T => ⟨.ok none, attemptTimes (T / effInterval interval) (effInterval interval), T⟩ := by
  rw [waitForRun]
  cases waitForEffTimeout settings timeout with
  | error e => rfl
  | ok T =>
    show (match firstHit (fun _ => (none : Option α)) (T / effInterval interval) with
      | some (k, v) => (⟨.ok (some v), attemptTimes k (effInterval interval),
          k * effInterval interval⟩ : WaitRun α)
      | none => ⟨.ok none, attemptTimes (T / effInterval interval) (effInterval interval), T⟩) = _
    rw [firstHit, firstHitFrom_const_none]

theorem findEval_spec {α : Type} (pred : α → Bool) :
    ∀ xs : List α,
      findEval pred xs =
        (xs.find? pred, (xs.takeWhile fun x => !pred x) ++ (xs.find? pred).toList) := by
  intro xs
  induction xs with
  | nil => rfl
  | cons x xs ih =>
    rw [findEval]
    cases hpx : pred x with
    | true => simp [hpx, List.find?_cons, List.takeWhile_cons]
    | false => simp [hpx, List.find?_cons, List.takeWhile_cons, ih]

theorem filter_validations {α : Type} (pred : α → Bool) :
    ∀ xs : List α,
      (((xs.map fun el => (el, pred el)).filter fun v => v.2).map fun v => v.1) =
        xs.filter pred := by
  intro xs
  induction xs with
  | nil => rfl
  | cons x xs ih =>
    simp only [List.map_cons, List.filter_cons]
    cases hpx : pred x with
    | true => simp [hpx, ih]
    | false => simp [hpx, ih]

theorem materialize_length (nid : Nat) :
    ∀ hs : List Handle, (materialize nid hs).length = hs.length := by
  intro hs
  induction hs generalizing nid with
  | nil => rfl
  | cons h hs ih => simp [materialize, ih]

theorem materialize_get (nid : Nat) :
    ∀ (hs : List Handle) (i : Nat) (hi : i < (materialize nid hs).length)
      (hi' : i < hs.length),
      (materialize nid hs).get ⟨i, hi⟩ = ⟨nid + i, hs.get ⟨i, hi'⟩⟩ := by
  intro hs
  induction hs generalizing nid with
  | nil => intro i hi hi'; exact absurd hi' (by simp)
  | cons h hs ih =>
    intro i hi hi'
    cases i with
    | zero => simp [materialize]
    | succ j =>
      have hj : j < (materialize (nid + 1) hs).length := by
        simpa [materialize] using hi
      have hj' : j < hs.length := by simpa using hi'
      calc (materialize nid (h :: hs)).get ⟨j + 1, hi⟩
          = (materialize (nid + 1) hs).get ⟨j, hj⟩ := rfl
        _ = ⟨nid + 1 + j, hs.get ⟨j, hj'⟩⟩ := ih (nid + 1) j hj hj'
        _ = ⟨nid + (j + 1), (h :: hs).get ⟨j + 1, hi'⟩⟩ := by
            simp [Nat.add_comm, Nat.add_left_comm]

theorem materialize_objId_bounds (nid : Nat) :
    ∀ (hs : List Handle) (e : PinnedElem), e ∈ materialize nid hs →
      nid ≤ e.objId ∧ e.objId < nid + hs.length := by
  intro hs
  induction hs generalizing nid with
  | nil => intro e he; exact absurd he (by simp [materialize])
  | cons h hs ih =>
    intro e he
    rw [materialize] at he
    rcases List.mem_cons.mp he with rfl | he'
    · simp
    · obtain ⟨h1, h2⟩ := ih (nid + 1) e he'
      exact ⟨by omega, by simpa [Nat.add_comm, Nat.add_left_comm, Nat.add_assoc] using h2⟩

theorem pageXFetcher_nomatch (dom : Dom) (ts : Nat) (s : String)
    (hA : dom s rootHandle = []) :
    (pageXFetcher dom (some ts) s none).1 =
        .error (.timeoutErr s (pompTimeoutValue (some ts) none)) ∧
      ∀ q ∈ (pageXFetcher dom (some ts) s none).2, q = s := by
  have hpred : (fun _ : Nat => (dom s rootHandle).head?) = fun _ => (none : Option Handle) := by
    funext k
    rw [hA]
    rfl
  have hw : waitForRun (some ts) (fun _ : Nat => (dom s rootHandle).head?) none none =
      ⟨.ok none,
        attemptTimes ((if ts != 0 then ts else 10000) / effInterval none) (effInterval none),
        if ts != 0 then ts else 10000⟩ := by
    rw [hpred, waitForRun_const_none]
    rfl
  simp only [pageXFetcher, hw]
  refine ⟨by trivial, fun q hq => List.eq_of_mem_replicate hq⟩

theorem elXFetcher_parent_error (dom : Dom) (settings : Option Nat) (P : Fetcher Handle)
    (s : String) (t : Option Nat) (e : PompError) (log : Log)
    (hP : P none = (.error e, log)) :
    elXFetcher dom settings P s t = P none := by
  simp only [elXFetcher, hP]

theorem elXXFetcher_parent_error (dom : Dom) (settings : Option Nat) (P : Fetcher Handle)
    (s : String) (t : Option Nat) (e : PompError) (log : Log)
    (hP : P none = (.error e, log)) :
    elXXFetcher dom settings P s t = (.error e, log) := by
  simp only [elXXFetcher, hP]

theorem elCssFetcher_parent_error (dom : Dom) (settings : Option Nat) (P : Fetcher Handle)
    (s : String) (t : Option Nat) (e : PompError) (log : Log)
    (hP : P none = (.error e, log)) :
    elCssFetcher dom settings P s t = P none := by
  simp only [elCssFetcher, hP]

theorem elCCFetcher_parent_error (dom : Dom) (settings : Option Nat) (P : Fetcher Handle)
    (s : String) (t : Option Nat) (e : PompError) (log : Log)
    (hP : P none = (.error e, log)) :
    elCCFetcher dom settings P s t = (.error e, log) := by
  simp only [elCCFetcher, hP]

/-! ## Claim theorems -/

/-- Claim C1 (code-bug evaluation): on a DOM where the selector matches zero
nodes, the xpath collection fetchers (`$$x` on an element and on a page) do
NOT reject with a `PompTimeoutError` — they resolve with the empty
collection, exactly like the css collection fetchers (`$$`).  The guard
`if (!el)` after `const el = self.$x(selector)` tests an un-awaited, hence
truthy, `Promise`, so the `throw new PompTimeoutError(...)` is unreachable. -/
theorem xpath_collection_zero_matches_resolves_empty :
    (elXXFetcher (fun _ _ => []) (some 5000) (fun _ => (.ok 1, [])) "p" none).1 = .ok [] ∧
    (pageXXFetcher (fun _ _ => []) (some 5000) "p" none).1 = .ok [] ∧
    (elCCFetcher (fun _ _ => []) (some 5000) (fun _ => (.ok 1, [])) "p" none).1 = .ok [] ∧
    (pageCCFetcher (fun _ _ => []) (some 5000) "p" none).1 = .ok [] :=
  ⟨rfl, rfl, rfl, rfl⟩

/-- Claim C2 (counterexample): when the session object lacks timeout settings
entirely, `waitFor` does not fall back to 10000 — the unguarded access
`(page as any)._timeoutSettings.timeout()` throws a `TypeError`, so the call
fails instead of polling. -/
theorem waitFor_missing_settings_throws :
    waitForEffTimeout none none = .error .typeError ∧
    (waitForRun (α := Nat) none (fun _ => some 1) none none).result = .error .typeError :=
  ⟨rfl, rfl⟩

/-- Claim C2 (amended): when the caller supplies no timeout (or a falsy one),
the effective timeout is the session's configured default; when the configured
default itself is falsy (zero), it falls back to 10000; but when the session
object lacks timeout settings entirely, `waitFor` throws a `TypeError` rather
than falling back.  The poll interval defaults to 500. -/
theorem waitFor_timeout_defaulting :
    (∀ (s : Option Nat) (t : Nat), t ≠ 0 → waitForEffTimeout s (some t) = .ok t) ∧
    (∀ v : Nat, v ≠ 0 → waitForEffTimeout (some v) none = .ok v) ∧
    waitForEffTimeout (some 0) none = .ok 10000 ∧
    (waitForEffTimeout none none = .error .typeError ∧
      waitForEffTimeout (some 7000) none = .ok 7000) ∧
    effInterval none = 500 := by
  refine ⟨?_, ?_, rfl, ⟨rfl, rfl⟩, rfl⟩
  · intro s t ht
    exact waitForEffTimeout_pos s (by omega)
  · intro v hv
    have hb : (v != 0) = true := by simpa using hv
    unfold waitForEffTimeout
    simp [numTruthy, hb]

/-- Witness for the amended C2 theorem at concrete inputs. -/
theorem waitFor_timeout_defaulting_witness :
    waitForEffTimeout (some 30000) (some 7) = .ok 7 ∧
    waitForEffTimeout (some 30000) none = .ok 30000 :=
  ⟨waitFor_timeout_defaulting.1 (some 30000) 7 (by decide),
   waitFor_timeout_defaulting.2.1 30000 (by decide)⟩

/-- Claim C3: `exists` never propagates an error — it returns `true` whenever
the element's fetch resolves with a handle (an object, hence truthy under the
`!!` coercion) and `false` whenever the fetch rejects with any error. -/
theorem exists_check_never_throws (fetch : Fetcher JsValue) (t : Nat) :
    (∀ log : Log, fetch (some t) = (.ok .objv, log) → existsCheck fetch t = true) ∧
    (∀ (e : PompError) (log : Log), fetch (some t) = (.error e, log) →
      existsCheck fetch t = false) := by
  constructor
  · intro log h
    simp [existsCheck, h, truthy]
  · intro e log h
    simp [existsCheck, h]

/-- Witness for C3 at concrete fetch closures, including a lookup-timeout
rejection. -/
theorem exists_check_never_throws_witness :
    existsCheck (fun _ => (.ok .objv, [])) 3 = true ∧
    existsCheck (fun _ => (.error (.timeoutErr "s" 10000), [])) 3 = false :=
  ⟨(exists_check_never_throws (fun _ => (.ok .objv, [])) 3).1 [] rfl,
   (exists_check_never_throws (fun _ => (.error (.timeoutErr "s" 10000), [])) 3).2
     (.timeoutErr "s" 10000) [] rfl⟩

/-- Claim C4 (counterexample): `classes` splits the className with
`split(" ")`, not on general whitespace: `"a  b"` yields the empty token
`""` between the two spaces, and `"a\tb"` yields the single token
`"a\tb"`, which contains whitespace — refuting "any maximal run of
whitespace separates two tokens and no returned token contains whitespace or
is empty". -/
theorem classes_single_space_counterexample :
    classes "a  b".data = [['a'], [], ['b']] ∧
    [] ∈ classes "a  b".data ∧
    classes "a\tb".data = [['a', '\t', 'b']] :=
  ⟨by decide, by decide, by decide⟩

/-- Claim C4 (amended): `classes` splits the className on each single space
character: no returned token contains a space character, and rejoining the
tokens with single spaces reconstructs the original className — but runs of
consecutive spaces produce empty tokens and non-space whitespace stays inside
tokens. -/
theorem classes_split_on_single_space (s : List Char) :
    ((classes s).all fun t => t.all fun c => c != ' ') = true ∧
    joinSpaces (classes s) = s :=
  ⟨jsSplitSpace_no_space s, joinSpaces_jsSplitSpace s⟩

/-- Claim C6: `find` fetches the collection once and walks it sequentially in
original order: it returns the first item on which the predicate is truthy
(`xs.find? pred`), or `undefined` (`none`) when no item matches, and the
evaluation log — the items the predicate was actually applied to, in order —
is exactly the non-matching prefix followed by the first match: the predicate
is never evaluated on any item after the first truthy one. -/
theorem find_first_match_short_circuit {α : Type} (pred : α → Bool) (xs : List α) :
    collFind (.ok xs) pred =
      (.ok (xs.find? pred),
        (xs.takeWhile fun x => !pred x) ++ (xs.find? pred).toList) := by
  simp only [collFind, findEval_spec]

/-- Claim C7: `filter` fetches the collection once, issues the predicate on
every item in fetched order (the evaluation log is the whole collection), and
returns exactly the items on which the predicate was truthy, in the original
relative order; in this model the result depends only on the per-item
predicate values, never on completion timing, mirroring `Promise.all`'s
index-order guarantee. -/
theorem filter_subsequence_in_order {α : Type} (pred : α → Bool) (xs : List α) :
    collFilter (.ok xs) pred = (.ok (xs.filter pred), xs) := by
  simp only [collFilter]
  rw [filter_validations]

/-- Claim C10: an explicitly supplied timeout of 0 is not honored: because
the default is chosen with `timeout || ...` (truthiness), `waitFor` behaves
exactly as if no timeout had been passed, substituting the session default or
10000. -/
theorem waitFor_zero_timeout_ignored {α : Type} (settings : Option Nat)
    (pred : Nat → Option α) (interval : Option Nat) :
    waitForRun settings pred (some 0) interval =
      waitForRun settings pred none interval ∧
    waitForEffTimeout settings (some 0) = waitForEffTimeout settings none :=
  ⟨rfl, rfl⟩

/-- Claim C5: every child locator's fetch resolves its parent first: when the
parent's fetch fails, each of the four child fetchers (`$x`, `$$x`, `$`, `$$`)
rejects with exactly the parent's error and issues no query of its own (the
query log is unchanged); consequently, in a chain page → A → B → C of single
xpath locators where A's selector never matches, fetching C rejects with A's
`PompTimeoutError` — carrying A's selector and A's defaulted timeout, not
C's — and neither B's nor C's selector is ever queried. -/
theorem child_fetch_parent_first
    (dom : Dom) (ts : Nat) (sA sB sC : String) (tC : Option Nat)
    (hA : dom sA rootHandle = []) (hBA : sB ≠ sA) (hCA : sC ≠ sA)
    (P : Fetcher Handle) (s : String) (t : Option Nat) (e : PompError) (log : Log)
    (hP : P none = (.error e, log)) :
    (elXFetcher dom (some ts) P s t = (.error e, log) ∧
      elXXFetcher dom (some ts) P s t = (.error e, log) ∧
      elCssFetcher dom (some ts) P s t = (.error e, log) ∧
      elCCFetcher dom (some ts) P s t = (.error e, log)) ∧
    (let A := pageXFetcher dom (some ts) sA
     let C := elXFetcher dom (some ts) (elXFetcher dom (some ts) A sB) sC
     C tC = A none ∧
       (C tC).1 = .error (.timeoutErr sA (pompTimeoutValue (some ts) none)) ∧
       sB ∉ (C tC).2 ∧ sC ∉ (C tC).2) := by
  obtain ⟨hA1, hA2⟩ := pageXFetcher_nomatch dom ts sA hA
  have hAeq : pageXFetcher dom (some ts) sA none =
      (.error (.timeoutErr sA (pompTimeoutValue (some ts) none)),
        (pageXFetcher dom (some ts) sA none).2) :=
    Prod.ext_iff.mpr ⟨hA1, rfl⟩
  have hB : elXFetcher dom (some ts) (pageXFetcher dom (some ts) sA) sB none =
      pageXFetcher dom (some ts) sA none :=
    elXFetcher_parent_error dom (some ts) _ sB none _ _ hAeq
  have hC : elXFetcher dom (some ts)
        (elXFetcher dom (some ts) (pageXFetcher dom (some ts) sA) sB) sC tC =
      elXFetcher dom (some ts) (pageXFetcher dom (some ts) sA) sB none :=
    elXFetcher_parent_error dom (some ts) _ sC tC _ _ (hB.trans hAeq)
  refine ⟨⟨(elXFetcher_parent_error dom (some ts) P s t e log hP).trans hP,
      elXXFetcher_parent_error dom (some ts) P s t e log hP,
      (elCssFetcher_parent_error dom (some ts) P s t e log hP).trans hP,
      elCCFetcher_parent_error dom (some ts) P s t e log hP⟩, ?_⟩
  intro A C
  have hCtoA : C tC = A none := hC.trans hB
  refine ⟨hCtoA, ?_, ?_, ?_⟩
  · rw [hCtoA]
    exact hA1
  · rw [hCtoA]
    intro hmem
    exact hBA (hA2 sB hmem)
  · rw [hCtoA]
    intro hmem
    exact hCA (hA2 sC hmem)

/-- Witness for C5: a concrete empty DOM, a concrete failing parent, and the
chain a → b → c with distinct selectors. -/
theorem child_fetch_parent_first_witness :
    (elXFetcher (fun _ _ => []) (some 5000) (fun _ => (.error .typeError, ["q"])) "d" none =
        (.error .typeError, ["q"]) ∧
      elXXFetcher (fun _ _ => []) (some 5000) (fun _ => (.error .typeError, ["q"])) "d" none =
        (.error .typeError, ["q"]) ∧
      elCssFetcher (fun _ _ => []) (some 5000) (fun _ => (.error .typeError, ["q"])) "d" none =
        (.error .typeError, ["q"]) ∧
      elCCFetcher (fun _ _ => []) (some 5000) (fun _ => (.error .typeError, ["q"])) "d" none =
        (.error .typeError, ["q"])) ∧
    (let A := pageXFetcher (fun _ _ => []) (some 5000) "a"
     let B := elXFetcher (fun _ _ => []) (some 5000) A "b"
     let C := elXFetcher (fun _ _ => []) (some 5000) B "c"
     C none = A none ∧
       (C none).1 = .error (.timeoutErr "a" (pompTimeoutValue (some 5000) none)) ∧
       "b" ∉ (C none).2 ∧ "c" ∉ (C none).2) :=
  child_fetch_parent_first (fun _ _ => []) 5000 "a" "b" "c" none rfl
    (by decide) (by decide) (fun _ => (.error .typeError, ["q"])) "d" none
    .typeError ["q"] rfl

/-- Claim C8: each call of the collection's fetch invokes the underlying
handle-list fetcher and maps each resolved handle, in order, to a freshly
constructed element whose own fetch returns that already-resolved handle and
issues no DOM query (empty query log); two fetch calls over an unchanged DOM
yield position-wise equivalent element lists (same handle per position) whose
instances share no identity (all allocation ids differ). -/
theorem collection_fetch_fresh_instances (cf : Fetcher (List Handle))
    (t : Option Nat) (hs : List Handle) (log : Log) (n0 : Nat)
    (hcf : cf t = (.ok hs, log)) :
    ∃ es1 es2 : List PinnedElem,
      (collFetch cf t n0).1 = (.ok es1, log) ∧
      (collFetch cf t (collFetch cf t n0).2).1 = (.ok es2, log) ∧
      es1.length = hs.length ∧ es2.length = hs.length ∧
      (∀ (i : Nat) (h1 : i < es1.length) (h2 : i < es2.length) (h : i < hs.length),
        pinnedFetch (es1.get ⟨i, h1⟩) = (.ok (hs.get ⟨i, h⟩), []) ∧
        pinnedFetch (es2.get ⟨i, h2⟩) = (.ok (hs.get ⟨i, h⟩), [])) ∧
      (∀ e1 ∈ es1, ∀ e2 ∈ es2, e1.objId ≠ e2.objId) := by
  refine ⟨materialize n0 hs, materialize (n0 + hs.length) hs, ?_, ?_,
    materialize_length n0 hs, materialize_length (n0 + hs.length) hs, ?_, ?_⟩
  · simp only [collFetch, hcf]
  · simp only [collFetch, hcf]
  · intro i h1 h2 h
    constructor
    · rw [materialize_get n0 hs i h1 h]
      rfl
    · rw [materialize_get (n0 + hs.length) hs i h2 h]
      rfl
  · intro e1 he1 e2 he2
    obtain ⟨_, hb1⟩ := materialize_objId_bounds n0 hs e1 he1
    obtain ⟨hb2, _⟩ := materialize_objId_bounds (n0 + hs.length) hs e2 he2
    omega

/-- Witness for C8 at a concrete two-element collection fetcher. -/
theorem collection_fetch_fresh_instances_witness :
    ∃ es1 es2 : List PinnedElem,
      (collFetch (fun _ => (.ok [5, 7], ["s"])) none 0).1 = (.ok es1, ["s"]) ∧
      (collFetch (fun _ => (.ok [5, 7], ["s"])) none
          (collFetch (fun _ => (.ok [5, 7], ["s"])) none 0).2).1 = (.ok es2, ["s"]) ∧
      es1.length = [5, 7].length ∧ es2.length = [5, 7].length ∧
      (∀ (i : Nat) (h1 : i < es1.length) (h2 : i < es2.length) (h : i < [5, 7].length),
        pinnedFetch (es1.get ⟨i, h1⟩) = (.ok ([5, 7].get ⟨i, h⟩), []) ∧
        pinnedFetch (es2.get ⟨i, h2⟩) = (.ok ([5, 7].get ⟨i, h⟩), [])) ∧
      (∀ e1 ∈ es1, ∀ e2 ∈ es2, e1.objId ≠ e2.objId) :=
  collection_fetch_fresh_instances (fun _ => (.ok [5, 7], ["s"])) none [5, 7] ["s"] 0 rfl

/-- Claim C9: for every predicate, timeout `T` and interval `I` with
`0 < I < T`, the poller never invokes the predicate after its promise
resolves (every attempt time is at most the resolution time — both timers are
cleared at resolution, so no further attempt is ever scheduled), resolution
happens no later than `T + I` after invocation, the promise resolves `null`
only when no attempt within the deadline was truthy, and a non-null
resolution is the truthy result of an attempt made exactly at the resolution
time. -/
theorem waitFor_no_attempts_after_resolution {α : Type}
    (settings : Option Nat) (pred : Nat → Option α) (T I : Nat)
    (hI : 0 < I) (hT : I < T) :
    (∀ u ∈ (waitForRun settings pred (some T) (some I)).attempts,
        u ≤ (waitForRun settings pred (some T) (some I)).resolveTime) ∧
    (waitForRun settings pred (some T) (some I)).resolveTime ≤ T + I ∧
    ((waitForRun settings pred (some T) (some I)).result = .ok none →
      ∀ k, 1 ≤ k → k * I ≤ T → pred k = none) ∧
    (∀ v, (waitForRun settings pred (some T) (some I)).result = .ok (some v) →
      ∃ k, 1 ≤ k ∧ k * I ≤ T ∧ pred k = some v ∧
        (waitForRun settings pred (some T) (some I)).resolveTime = k * I) := by
  have hrun : waitForRun settings pred (some T) (some I) =
      match firstHit pred (T / I) with
      | some (k, v) => ⟨.ok (some v), attemptTimes k I, k * I⟩
      | none => ⟨.ok none, attemptTimes (T / I) I, T⟩ := by
    rw [waitForRun, waitForEffTimeout_pos settings (by omega)]
    rfl
  cases hfh : firstHit pred (T / I) with
  | some kv =>
    obtain ⟨k, v⟩ := kv
    rw [hfh] at hrun
    have hres : (waitForRun settings pred (some T) (some I)).result = .ok (some v) := by
      rw [hrun]
    have hatt : (waitForRun settings pred (some T) (some I)).attempts = attemptTimes k I := by
      rw [hrun]
    have hrt : (waitForRun settings pred (some T) (some I)).resolveTime = k * I := by
      rw [hrun]
    obtain ⟨hk1, hk2, hk3⟩ := firstHitFrom_eq_some (T / I) 1 k v hfh
    have hkI : k * I ≤ T :=
      le_trans (Nat.mul_le_mul_right I (by omega : k ≤ T / I)) (Nat.div_mul_le_self T I)
    refine ⟨?_, ?_, ?_, ?_⟩
    · intro u hu
      rw [hatt] at hu
      rw [hrt]
      obtain ⟨i, hi, rfl⟩ := mem_attemptTimes hu
      exact Nat.mul_le_mul_right I (by omega)
    · rw [hrt]
      omega
    · intro habs
      rw [hres] at habs
      exact absurd habs (by simp)
    · intro w hw
      rw [hres] at hw
      simp only [Except.ok.injEq, Option.some.injEq] at hw
      exact ⟨k, hk1, hkI, hw ▸ hk3, hrt⟩
  | none =>
    rw [hfh] at hrun
    have hres : (waitForRun settings pred (some T) (some I)).result = .ok none := by
      rw [hrun]
    have hatt : (waitForRun settings pred (some T) (some I)).attempts =
        attemptTimes (T / I) I := by
      rw [hrun]
    have hrt : (waitForRun settings pred (some T) (some I)).resolveTime = T := by
      rw [hrun]
    refine ⟨?_, ?_, ?_, ?_⟩
    · intro u hu
      rw [hatt] at hu
      rw [hrt]
      obtain ⟨i, hi, rfl⟩ := mem_attemptTimes hu
      exact le_trans (Nat.mul_le_mul_right I (by omega : i + 1 ≤ T / I))
        (Nat.div_mul_le_self T I)
    · rw [hrt]
      omega
    · intro _ k hk1 hkT
      have hkn : k ≤ T / I := (Nat.le_div_iff_mul_le hI).mpr hkT
      exact firstHitFrom_eq_none (T / I) 1 hfh k hk1 (by omega)
    · intro v hv
      rw [hres] at hv
      exact absurd hv (by simp)

/-- Witness for C9 at a concrete predicate that becomes truthy on its second
attempt, with timeout 2000 and interval 500. -/
theorem waitFor_no_attempts_after_resolution_witness :
    (waitForRun (some 30000) (fun k => if k = 2 then some 42 else none)
        (some 2000) (some 500)).resolveTime ≤ 2000 + 500 :=
  (waitFor_no_attempts_after_resolution (some 30000)
      (fun k => if k = 2 then some 42 else none) 2000 500
      (by decide) (by decide)).2.1

end Pompeteer
